import Mathlib

/-!
Shallow embedding of `src/loudness_normalize.py` (LUFS loudness normalizer).

Samples are modelled as exact rationals; the transcendental dB-to-linear map
`x ↦ 10 ^ (x / 20)` is kept abstract as a function parameter `db2lin`
(its value is irrational on ℚ), and the external collaborators
(librosa decode, pyloudnorm meter, soundfile encode) are abstract fields of
an environment record, as the spec treats them as black boxes.
-/

namespace LufsNormalizer

/-- Samples of one audio channel, exact rationals standing for Python floats. -/
abbrev Channel := List ℚ

/-- Multi-channel audio buffer, channel-major: a list of equal-length channels. -/
abbrev Buffer := List Channel

/-- Pointwise scaling of every sample in every channel by one linear gain
factor, modelling numpy's scalar-times-array broadcast used throughout
`normalize_loudness` (`normalized_audio * gain`). -/
def scaleBuffer (g : ℚ) (b : Buffer) : Buffer :=
  b.map (fun ch => ch.map (fun x => g * x))

/-- Largest absolute value of a list of samples, 0 on the empty list. -/
def peakList (l : List ℚ) : ℚ :=
  (l.map (fun x => |x|)).foldr max 0

/-- Sample-domain peak over all channels: models `np.max(np.abs(buffer))`. -/
def peakOf (b : Buffer) : ℚ := peakList b.flatten

/-- Splits a character list at every slash, keeping empty pieces (so
consecutive, leading and trailing slashes yield empty components). -/
def splitOnSlash : List Char → List (List Char)
  | [] => [[]]
  | c :: cs =>
    if c = '/' then [] :: splitOnSlash cs
    else
      match splitOnSlash cs with
      | [] => [[c]]
      | p :: ps => (c :: p) :: ps

/-- Final path component, modelling `pathlib.Path(file_path).name` (POSIX
flavour): pathlib parses the path into components, discarding empty
components (from repeated or trailing slashes) and `.` components, and the
name is the last remaining component (empty when none remains, as for the
root or the current directory). -/
def basenameChars (l : List Char) : List Char :=
  ((splitOnSlash l).filter
    (fun p => decide (p ≠ []) && decide (p ≠ ['.']))).getLastD []

/-- Splits a name at its last dot: `some (front, rest)` when the list is
`front ++ dot :: rest` with `rest` dot-free, `none` when there is no dot. -/
def splitLastDot : List Char → Option (List Char × List Char)
  | [] => none
  | c :: cs =>
    match splitLastDot cs with
    | some (f, r) => some (c :: f, r)
    | none => if c = '.' then some ([], cs) else none

/-- Models `pathlib.Path.suffix` on the final component: the extension
including its dot when the name has a dot that is neither leading nor
trailing, otherwise the empty suffix. -/
def suffixChars (name : List Char) : List Char :=
  match splitLastDot name with
  | some (front, rest) => if front = [] ∨ rest = [] then [] else '.' :: rest
  | none => []

/-- Embeds `get_file_extension` (lines 19-29): the lowercased pathlib suffix
of the path with leading dots stripped (`suffix.lower().lstrip('.')`). -/
def get_file_extension (p : String) : String :=
  String.mk (((suffixChars (basenameChars p.data)).map Char.toLower).dropWhile
    (fun c => c = '.'))

def wav_ext : String := "wav"

def mp3_ext : String := "mp3"

def flac_ext : String := "flac"

/-- The fixed allow-list of lines 42. -/
def supported_formats : List String := [wav_ext, mp3_ext, flac_ext]

/-- Embeds `check_supported_format` (lines 32-44): membership of the
lowercase extension in the fixed three-element allow-list. -/
def check_supported_format (p : String) : Bool :=
  supported_formats.contains (get_file_extension p)

/-- External collaborators and the transcendental dB-to-linear map, kept
abstract exactly as the spec treats them: `decode` models `librosa.load`
(returning a channel-major buffer and a sample rate, or a decode failure),
`meter` models `pyln.Meter(sr, block_size=0.400).integrated_loudness`
(`none` encodes an integrated loudness of negative infinity), `db2lin x`
stands for the real number `10 ^ (x / 20)` (kept abstract because that value
is irrational on ℚ), and `encode` models `sf.write`. -/
structure Env where
  decode : String → Except String (Buffer × ℕ)
  meter : ℕ → Buffer → Option ℚ
  db2lin : ℚ → ℚ
  encode : String → Buffer → ℕ → Except String Unit

/-- Error text standing for the unsupported-format message of lines 68-71
(the Japanese source text is elided; only its identity matters here). -/
def unsupported_format_message (p : String) : String :=
  "unsupported file format: " ++ p

/-- Modelled from the spec: the text of the `SilentSignalError` condition
of sections 4.3 and 7 of the spec (the condition itself is not implemented
under `src/`; the measurement and gain application are delegated to the
external pyloudnorm library). -/
def silent_signal_message : String :=
  "SilentSignalError: integrated loudness is negative infinity"

/-- Modelled from the spec: the external gain normalizer
`pyln.normalize.loudness(data, input_loudness, target_loudness)` called on
line 95, which is not part of this repository's sources. Per spec section
4.3 it computes `gain_db = target_loudness - measured_loudness`, converts it
to the linear factor `10 ^ (gain_db / 20)` (`db2lin gain_db`), multiplies
every sample in every channel by that factor, and fails with the
silent-signal condition when the measured loudness is negative infinity
(encoded as `none`). -/
def pyln_normalize_loudness (db2lin : ℚ → ℚ) (measured : Option ℚ)
    (target : ℚ) (b : Buffer) : Except String Buffer :=
  match measured with
  | none => .error silent_signal_message
  | some m => .ok (scaleBuffer (db2lin (target - m)) b)

/-- Embeds lines 122-126 of `normalize_loudness`: after the compensation
gain, re-check the peak and hard-clamp the buffer back to the ceiling when
it exceeds it (`final_limiter_gain = peak_limit_linear / new_peak`). -/
def postCompClamp (env : Env) (tpl : ℚ) (a : Buffer) : Buffer :=
  if env.db2lin tpl < peakOf a then scaleBuffer (env.db2lin tpl / peakOf a) a
  else a

/-- Embeds the true-peak limiter block, lines 100-126 of
`normalize_loudness`: when the current peak exceeds
`peak_limit_linear = 10 ^ (true_peak_limit / 20)`, scale by
`peak_limit_linear / current_peak`, re-measure the loudness of the scaled
buffer, apply the damped compensation gain
`0.8 * 10 ^ ((target - limited_loudness) / 20)`, re-check and clamp; the
boolean is the `limiter_applied` flag. A re-measured loudness of negative
infinity would make the Python compensation gain a non-finite float, which
leaves the exact rational model; per the spec's global silent-signal rule
(section 7: a negative-infinity loudness must not be used as a gain base)
that corner is routed to the silent-signal condition. -/
def apply_true_peak_limiter (env : Env) (sr : ℕ) (target tpl : ℚ)
    (b : Buffer) : Except String (Buffer × Bool) :=
  if env.db2lin tpl < peakOf b then
    match env.meter sr (scaleBuffer (env.db2lin tpl / peakOf b) b) with
    | none => .error silent_signal_message
    | some limited_loudness =>
      .ok (postCompClamp env tpl
        (scaleBuffer (4/5 * env.db2lin (target - limited_loudness))
          (scaleBuffer (env.db2lin tpl / peakOf b) b)), true)
  else .ok (b, false)

/-- Shape of the success dictionary built on lines 140-149 (field for field:
`original_loudness`, `normalized_loudness`, `loudness_gain`,
`limiter_applied`, `true_peak_limit`, `channels`, `is_stereo`) and of the
error dictionary of lines 68-71 and 151-152; `none` in a loudness field
encodes a float of negative infinity. -/
inductive NormResult where
  | success (original_loudness : ℚ) (normalized_loudness loudness_gain : Option ℚ)
      (limiter_applied : Bool) (true_peak_limit : ℚ)
      (channels : ℕ) (is_stereo : Bool) : NormResult
  | error (msg : String) : NormResult
deriving DecidableEq

/-- Record of one `sf.write` call: the path, buffer and sample rate handed
to the encoder. -/
structure Written where
  path : String
  buf : Buffer
  sr : ℕ
deriving DecidableEq

/-- Embeds lines 128-149 of `normalize_loudness`: measure the loudness of
the final buffer, write it out (`sf.write`; a raised write error is caught
by the enclosing handler and becomes an error dictionary), and build the
success dictionary. -/
def finish_stage (env : Env) (o : String) (sr : ℕ)
    (tpl original_loudness : ℚ) (channels : ℕ) (is_stereo : Bool)
    (final : Buffer) (limiter_applied : Bool) : NormResult × Option Written :=
  match env.encode o final sr with
  | .error e => (.error e, none)
  | .ok _ =>
    (.success original_loudness (env.meter sr final)
      ((env.meter sr final).map (fun x => x - original_loudness))
      limiter_applied tpl channels is_stereo, some ⟨o, final, sr⟩)

/-- Embeds `normalize_loudness` (lines 47-152): format check, decode,
measurement, gain application (via the spec-modelled
`pyln_normalize_loudness`; the branch on the measured loudness mirrors its
silent-signal failure being caught by the `except` handler of lines
151-152), true-peak limiting, final measurement, encode, result dictionary.
The second component records the buffer handed to the encoder, `none` when
nothing was written. -/
def normalize_loudness (env : Env) (input_path output_path : String)
    (target_loudness true_peak_limit : ℚ) : NormResult × Option Written :=
  if check_supported_format input_path then
    match env.decode input_path with
    | .error e => (.error e, none)
    | .ok (audio_data, sr) =>
      match env.meter sr audio_data with
      | none => (.error silent_signal_message, none)
      | some original_loudness =>
        match pyln_normalize_loudness env.db2lin (some original_loudness)
            target_loudness audio_data with
        | .error e => (.error e, none)
        | .ok normalized0 =>
          match apply_true_peak_limiter env sr target_loudness
              true_peak_limit normalized0 with
          | .error e => (.error e, none)
          | .ok (final, limiter_applied) =>
            finish_stage env output_path sr true_peak_limit original_loudness
              audio_data.length (decide (1 < audio_data.length))
              final limiter_applied
  else (.error (unsupported_format_message input_path), none)

/-- Embeds the target adjustment of `_process_normalization_attempt`
(lines 361-389): for attempts after the first, reload the file at
`input_path`, measure its integrated loudness, and set the working target to
`target + 1.5 * (target - current_loudness)`; for the first attempt the
target is unchanged. `none` models the corners that leave the embedding
(a decode exception propagates out of the Python function uncaught; a
measured loudness of negative infinity would make the adjusted target a
non-finite float). -/
def attempt_adjusted_target (env : Env) (input_path : String) (target : ℚ)
    (attempt_num : ℕ) : Option ℚ :=
  if 1 < attempt_num then
    match env.decode input_path with
    | .error _ => none
    | .ok (audio_data, sr) =>
      match env.meter sr audio_data with
      | none => none
      | some current_loudness =>
        some (target + 3/2 * (target - current_loudness))
  else some target

/-- Embeds `_process_normalization_attempt` (lines 343-412): compute the
adjusted working target, then run `normalize_loudness` on `input_path` with
it (the printing is side-effect only and elided). -/
def process_normalization_attempt (env : Env) (input_path output_path : String)
    (target tpl : ℚ) (attempt_num : ℕ) :
    Option (NormResult × Option Written) :=
  (attempt_adjusted_target env input_path target attempt_num).map
    (fun adj => normalize_loudness env input_path output_path adj tpl)

/-- Embeds `is_within_tolerance` (lines 328-340). -/
def is_within_tolerance (value target tolerance : ℚ) : Bool :=
  decide (|value - target| ≤ tolerance)

/-- Success flag computed by `main` (lines 487-489) after
`normalize_loudness` has returned and the file has been written: Python's
`abs(value - target) <= tolerance` with a `normalized_loudness` of negative
infinity (`none`) comparing false; on an error result `main` exits before
computing the flag, modelled as `false`. -/
def success_flag (res : NormResult) (target tolerance : ℚ) : Bool :=
  match res with
  | .success _ (some nl) _ _ _ _ _ => is_within_tolerance nl target tolerance
  | .success _ none _ _ _ _ _ => false
  | .error _ => false

/-! Concrete environments and inputs used to witness the theorems. -/

def inPath : String := "in.wav"

def outPath : String := "out.wav"

def oggPath : String := "a.ogg"

def upperWavPath : String := "B.WAV"

def trailingSlashPath : String := "x.wav/"

def dotComponentPath : String := "dir/song.mp3/."

def decode_failure_message : String := "decode failure"

def bufA : Buffer := [[1/2]]

def bufB : Buffer := [[1]]

def bufC : Buffer := [[2]]

def bufD : Buffer := [[4/5]]

/-- Sample dB-to-linear map for witnesses: positive everywhere, maps 0 dB to
the factor 1 and 6 dB to the factor 2 (standing in for an exact doubling). -/
def sampleDb2lin : ℚ → ℚ := fun x => if x = 6 then 2 else 1

/-- Sample environment: the input file decodes to `bufA`, whose loudness
measures -20 LUFS, while every other buffer measures -10 LUFS; encoding
always succeeds. -/
def sampleEnv : Env where
  decode := fun p => if p = inPath then .ok (bufA, 48000) else .error decode_failure_message
  meter := fun _ b => if b = bufA then some (-20) else some (-10)
  db2lin := sampleDb2lin
  encode := fun _ _ _ => .ok ()

/-- Environment whose meter always reports negative infinity (silence). -/
def silentEnv : Env where
  decode := fun p => if p = inPath then .ok (bufA, 48000) else .error decode_failure_message
  meter := fun _ _ => none
  db2lin := fun _ => 1
  encode := fun _ _ _ => .ok ()

/-! Helper lemmas about peaks and scaling. -/

theorem peakList_cons (x : ℚ) (xs : List ℚ) :
    peakList (x :: xs) = max |x| (peakList xs) := rfl

theorem peakList_nonneg (l : List ℚ) : 0 ≤ peakList l := by
  induction l with
  | nil => exact le_refl 0
  | cons x xs ih => exact le_trans ih (by rw [peakList_cons]; exact le_max_right _ _)

theorem peakOf_nonneg (b : Buffer) : 0 ≤ peakOf b := peakList_nonneg _

theorem peakList_map_mul (g : ℚ) (hg : 0 ≤ g) (l : List ℚ) :
    peakList (l.map (fun x => g * x)) = g * peakList l := by
  induction l with
  | nil => simp [peakList]
  | cons x xs ih =>
    rw [List.map_cons, peakList_cons, peakList_cons, ih, abs_mul,
      abs_of_nonneg hg, mul_max_of_nonneg _ _ hg]

theorem flatten_scaleBuffer (g : ℚ) (b : Buffer) :
    (scaleBuffer g b).flatten = b.flatten.map (fun x => g * x) := by
  rw [scaleBuffer, List.map_flatten]

theorem peakOf_scale (g : ℚ) (hg : 0 ≤ g) (b : Buffer) :
    peakOf (scaleBuffer g b) = g * peakOf b := by
  rw [peakOf, flatten_scaleBuffer, peakList_map_mul g hg, peakOf]

theorem scaleBuffer_one (b : Buffer) : scaleBuffer 1 b = b := by
  simp [scaleBuffer]

theorem scaleBuffer_shape (g : ℚ) (b : Buffer) :
    (scaleBuffer g b).map List.length = b.map List.length := by
  simp [scaleBuffer, List.map_map, Function.comp]

/-- The post-compensation re-check never leaves the peak above the ceiling:
it either finds the peak already within the ceiling or scales it back to
exactly the ceiling. -/
theorem postCompClamp_peak_le (env : Env) (tpl : ℚ)
    (hceil : 0 < env.db2lin tpl) (a : Buffer) :
    peakOf (postCompClamp env tpl a) ≤ env.db2lin tpl := by
  unfold postCompClamp
  by_cases hc : env.db2lin tpl < peakOf a
  · rw [if_pos hc]
    have hnp : (0 : ℚ) < peakOf a := lt_trans hceil hc
    rw [peakOf_scale _ (div_nonneg hceil.le hnp.le), div_mul_cancel₀ _ hnp.ne']
  · rw [if_neg hc]
    exact not_lt.mp hc

theorem postCompClamp_shape (env : Env) (tpl : ℚ) (a : Buffer) :
    (postCompClamp env tpl a).map List.length = a.map List.length := by
  unfold postCompClamp
  by_cases hc : env.db2lin tpl < peakOf a
  · rw [if_pos hc, scaleBuffer_shape]
  · rw [if_neg hc]

/-- Any buffer the limiter returns has its peak at or below the ceiling. -/
theorem limiter_peak_le (env : Env) (sr : ℕ) (t tpl : ℚ) (b out : Buffer)
    (la : Bool) (hceil : 0 < env.db2lin tpl)
    (h : apply_true_peak_limiter env sr t tpl b = .ok (out, la)) :
    peakOf out ≤ env.db2lin tpl := by
  unfold apply_true_peak_limiter at h
  by_cases hc : env.db2lin tpl < peakOf b
  · rw [if_pos hc] at h
    rcases hm : env.meter sr (scaleBuffer (env.db2lin tpl / peakOf b) b) with _ | L
    · rw [hm] at h
      exact absurd h (by simp)
    · rw [hm] at h
      simp only [Except.ok.injEq, Prod.mk.injEq] at h
      obtain ⟨hout, _⟩ := h
      rw [← hout]
      exact postCompClamp_peak_le env tpl hceil _
  · rw [if_neg hc] at h
    simp only [Except.ok.injEq, Prod.mk.injEq] at h
    obtain ⟨hout, _⟩ := h
    rw [← hout]
    exact not_lt.mp hc

/-- The limiter never changes the channel structure: it only scales. -/
theorem limiter_shape (env : Env) (sr : ℕ) (t tpl : ℚ) (b out : Buffer)
    (la : Bool)
    (h : apply_true_peak_limiter env sr t tpl b = .ok (out, la)) :
    out.map List.length = b.map List.length := by
  unfold apply_true_peak_limiter at h
  by_cases hc : env.db2lin tpl < peakOf b
  · rw [if_pos hc] at h
    rcases hm : env.meter sr (scaleBuffer (env.db2lin tpl / peakOf b) b) with _ | L
    · rw [hm] at h
      exact absurd h (by simp)
    · rw [hm] at h
      simp only [Except.ok.injEq, Prod.mk.injEq] at h
      obtain ⟨hout, _⟩ := h
      rw [← hout, postCompClamp_shape, scaleBuffer_shape, scaleBuffer_shape]
  · rw [if_neg hc] at h
    simp only [Except.ok.injEq, Prod.mk.injEq] at h
    obtain ⟨hout, _⟩ := h
    rw [← hout]

/-- Every run of `normalize_loudness` ends in exactly one of the two result
dictionary shapes: an error dictionary with nothing written, or a success
dictionary with the final buffer written, the configured
`true_peak_limit` echoed in its field. -/
theorem normalize_cases (env : Env) (i o : String) (t tpl : ℚ) :
    (∃ msg, normalize_loudness env i o t tpl = (.error msg, none)) ∨
    (∃ ol nl g la ch st w, normalize_loudness env i o t tpl =
      (.success ol nl g la tpl ch st, some w)) := by
  unfold normalize_loudness
  split
  · split
    · exact Or.inl ⟨_, rfl⟩
    · split
      · exact Or.inl ⟨_, rfl⟩
      · split
        · exact Or.inl ⟨_, rfl⟩
        · split
          · exact Or.inl ⟨_, rfl⟩
          · unfold finish_stage
            split
            · exact Or.inl ⟨_, rfl⟩
            · exact Or.inr ⟨_, _, _, _, _, _, _, rfl⟩
  · exact Or.inl ⟨_, rfl⟩

theorem sampleEnv_db2lin_pos : ∀ x, 0 < sampleEnv.db2lin x := by
  intro x
  show 0 < sampleDb2lin x
  unfold sampleDb2lin
  split <;> norm_num

/-- Concrete evaluation of one full run of `normalize_loudness` in the
sample environment: the -20 LUFS input is amplified by the 6 dB gain factor
2 to `bufB`, the limiter stays disengaged at the ceiling factor 1, and
`bufB` is written out. -/
theorem sampleEnv_run :
    normalize_loudness sampleEnv inPath outPath (-14) (-1) =
      (.success (-20) (some (-10)) (some 10) false (-1) 1 false,
        some ⟨outPath, bufB, 48000⟩) := by
  have hfmt : check_supported_format inPath = true := by decide
  have hdec : sampleEnv.decode inPath = .ok (bufA, 48000) := by
    simp [sampleEnv]
  have hm1 : sampleEnv.meter 48000 bufA = some (-20) := by
    simp [sampleEnv]
  have hg : sampleEnv.db2lin ((-14 : ℚ) - (-20)) = 2 := by
    norm_num [sampleEnv, sampleDb2lin]
  have hs : scaleBuffer 2 bufA = bufB := by
    norm_num [scaleBuffer, bufA, bufB]
  have hpy : pyln_normalize_loudness sampleEnv.db2lin (some (-20)) (-14) bufA
      = .ok bufB := by
    rw [pyln_normalize_loudness, hg, hs]
  have hceil : sampleEnv.db2lin (-1 : ℚ) = 1 := by
    norm_num [sampleEnv, sampleDb2lin]
  have hpk : peakOf bufB = 1 := by
    norm_num [peakOf, peakList_cons, peakList, bufB]
  have hlim : apply_true_peak_limiter sampleEnv 48000 (-14) (-1) bufB
      = .ok (bufB, false) := by
    unfold apply_true_peak_limiter
    rw [hceil, hpk, if_neg (by norm_num)]
  have hm2 : sampleEnv.meter 48000 bufB = some (-10) := by
    norm_num [sampleEnv, bufA, bufB]
  have henc : sampleEnv.encode outPath bufB 48000 = .ok () := rfl
  have hch : bufA.length = 1 := rfl
  rw [normalize_loudness, hfmt]
  simp only [if_true, hdec, hm1, hpy, hlim, hch]
  rw [finish_stage]
  simp only [hm2, henc]
  norm_num

/-- Whenever `finish_stage` reports a written buffer, it is exactly the
final buffer, written to the output path at the decoded sample rate. -/
theorem finish_stage_written (env : Env) (o : String) (sr : ℕ) (tpl ol : ℚ)
    (ch : ℕ) (st : Bool) (final : Buffer) (la : Bool) (w : Written)
    (hw : (finish_stage env o sr tpl ol ch st final la).2 = some w) :
    w = ⟨o, final, sr⟩ := by
  unfold finish_stage at hw
  split at hw
  · simp at hw
  · exact (Option.some_inj.mp hw).symm

/-- C1: Ceiling invariant. For every environment (arbitrary decoder, meter
and encoder behavior), every input and every configuration with a positive
dB-to-linear map, the buffer that `normalize_loudness` hands to the encoder
has `max |sample| ≤ 10 ^ (true_peak_limit / 20)`, regardless of how much
gain the normalization step applied; the post-compensation re-check
(`postCompClamp`) scales the buffer back to exactly the ceiling whenever
the compensation gain pushed the peak above it. -/
theorem ceiling_invariant (env : Env) (i o : String) (t tpl : ℚ)
    (hpos : ∀ x, 0 < env.db2lin x) (w : Written)
    (hw : (normalize_loudness env i o t tpl).2 = some w) :
    peakOf w.buf ≤ env.db2lin tpl := by
  unfold normalize_loudness at hw
  split at hw
  · split at hw
    · simp at hw
    · split at hw
      · simp at hw
      · split at hw
        · simp at hw
        · split at hw
          · simp at hw
          · rename_i final la heq
            rw [finish_stage_written _ _ _ _ _ _ _ _ _ _ hw]
            exact limiter_peak_le env _ t tpl _ final la (hpos tpl) heq
  · simp at hw

theorem ceiling_invariant_witness :
    (normalize_loudness sampleEnv inPath outPath (-14) (-1)).2 =
      some ⟨outPath, bufB, 48000⟩ ∧
    peakOf (Written.mk outPath bufB 48000).buf ≤ sampleEnv.db2lin (-1) := by
  have hw : (normalize_loudness sampleEnv inPath outPath (-14) (-1)).2 =
      some ⟨outPath, bufB, 48000⟩ := by rw [sampleEnv_run]
  exact ⟨hw, ceiling_invariant sampleEnv inPath outPath (-14) (-1)
    sampleEnv_db2lin_pos ⟨outPath, bufB, 48000⟩ hw⟩

/-- C10: Totality of the public entry point. For every environment
(including failing decoders and encoders) and every input,
`normalize_loudness` returns either an error dictionary carrying a message
string (and nothing written), or a success dictionary carrying the
loudness, gain, limiter and channel fields (with the final buffer written);
no other outcome exists. -/
theorem totality_of_entry_point (env : Env) (i o : String) (t tpl : ℚ) :
    (∃ msg, normalize_loudness env i o t tpl = (.error msg, none)) ∨
    (∃ ol nl g la ch st w, normalize_loudness env i o t tpl =
      (.success ol nl g la tpl ch st, some w)) :=
  normalize_cases env i o t tpl

/-- C8: Report-only convergence failure. Whenever `normalize_loudness`
completes with a success dictionary, a buffer was encoded to the output
path; the success flag is computed afterwards by `main` as
`|normalized_loudness - target| ≤ tolerance` (`is_within_tolerance`), and
since `normalize_loudness` never receives the tolerance, missing it cannot
suppress or discard the written output (the conclusion holds for every
tolerance). -/
theorem report_only_convergence (env : Env) (i o : String) (t tpl tol : ℚ)
    (ol : ℚ) (nl g : Option ℚ) (la : Bool) (tp : ℚ) (ch : ℕ) (st : Bool)
    (h : (normalize_loudness env i o t tpl).1 = .success ol nl g la tp ch st) :
    (∃ w, (normalize_loudness env i o t tpl).2 = some w) ∧
    success_flag (normalize_loudness env i o t tpl).1 t tol =
      nl.elim false (fun v => is_within_tolerance v t tol) ∧
    (∀ v : ℚ, is_within_tolerance v t tol = decide (|v - t| ≤ tol)) := by
  refine ⟨?_, ?_, fun v => rfl⟩
  · rcases normalize_cases env i o t tpl with ⟨msg, hrun⟩ |
      ⟨ol', nl', g', la', ch', st', w, hrun⟩
    · rw [hrun] at h
      exact absurd h (by simp)
    · exact ⟨w, by rw [hrun]⟩
  · rw [h]
    cases nl <;> rfl

theorem report_only_convergence_witness :
    (∃ w, (normalize_loudness sampleEnv inPath outPath (-14) (-1)).2 = some w) ∧
    success_flag (normalize_loudness sampleEnv inPath outPath (-14) (-1)).1
      (-14) (1/2) = is_within_tolerance (-10) (-14) (1/2) ∧
    (∀ v : ℚ, is_within_tolerance v (-14) (1/2) = decide (|v - (-14)| ≤ 1/2)) :=
  report_only_convergence sampleEnv inPath outPath (-14) (-1) (1/2)
    (-20) (some (-10)) (some 10) false (-1) 1 false (by rw [sampleEnv_run])

/-- C9: Channel-count preservation. For every input that decodes to the
buffer `a`, any buffer written by `normalize_loudness` has exactly the same
number of channels and the same per-channel sample count as `a`: every
processing stage only scales samples. -/
theorem channel_count_preservation (env : Env) (i o : String) (t tpl : ℚ)
    (a : Buffer) (sr : ℕ) (hdec : env.decode i = .ok (a, sr)) (w : Written)
    (hw : (normalize_loudness env i o t tpl).2 = some w) :
    w.buf.map List.length = a.map List.length ∧ w.buf.length = a.length := by
  have hmain : w.buf.map List.length = a.map List.length := by
    unfold normalize_loudness at hw
    split at hw
    · split at hw
      · simp at hw
      · rename_i a' sr' heqdec
        rw [hdec] at heqdec
        simp only [Except.ok.injEq, Prod.mk.injEq] at heqdec
        obtain ⟨ha, hsr⟩ := heqdec
        subst ha hsr
        split at hw
        · simp at hw
        · rename_i ol heqm
          split at hw
          · simp at hw
          · rename_i normalized0 heqpy
            simp only [pyln_normalize_loudness, Except.ok.injEq] at heqpy
            split at hw
            · simp at hw
            · rename_i final la heqlim
              rw [finish_stage_written _ _ _ _ _ _ _ _ _ _ hw]
              have h1 := limiter_shape _ _ _ _ _ _ _ heqlim
              rw [← heqpy, scaleBuffer_shape] at h1
              exact h1
    · simp at hw
  refine ⟨hmain, ?_⟩
  have h2 := congrArg List.length hmain
  simpa using h2

theorem channel_count_preservation_witness :
    (Written.mk outPath bufB 48000).buf.map List.length =
      bufA.map List.length ∧
    (Written.mk outPath bufB 48000).buf.length = bufA.length :=
  channel_count_preservation sampleEnv inPath outPath (-14) (-1) bufA 48000
    (by simp [sampleEnv]) ⟨outPath, bufB, 48000⟩ (by rw [sampleEnv_run])

/-- C6: Round-trip identity. When the measured loudness already equals the
target (so the gain is exactly 0 dB, linear factor `db2lin 0 = 1`) and the
peak is at or below the ceiling, one pass of `normalize_loudness` leaves
the samples unchanged, reports `limiter_applied = false`, and records a
loudness gain of exactly 0. -/
theorem round_trip_identity (env : Env) (i o : String) (t tpl : ℚ)
    (a : Buffer) (sr : ℕ)
    (h0 : env.db2lin 0 = 1)
    (hfmt : check_supported_format i = true)
    (hdec : env.decode i = .ok (a, sr))
    (hm : env.meter sr a = some t)
    (hpeak : peakOf a ≤ env.db2lin tpl)
    (henc : env.encode o a sr = .ok ()) :
    normalize_loudness env i o t tpl =
      (.success t (some t) (some 0) false tpl a.length
        (decide (1 < a.length)), some ⟨o, a, sr⟩) := by
  have hbuf : scaleBuffer (env.db2lin (t - t)) a = a := by
    rw [sub_self, h0, scaleBuffer_one]
  have hpy : pyln_normalize_loudness env.db2lin (some t) t a = .ok a := by
    simp only [pyln_normalize_loudness, hbuf]
  have hlim : apply_true_peak_limiter env sr t tpl a = .ok (a, false) := by
    unfold apply_true_peak_limiter
    rw [if_neg (not_lt.mpr hpeak)]
  rw [normalize_loudness, hfmt]
  simp only [if_true, hdec, hm, hpy, hlim]
  rw [finish_stage]
  simp only [hm, henc, Option.map_some']
  rw [sub_self]

theorem round_trip_identity_witness :
    normalize_loudness sampleEnv inPath outPath (-20) (-1) =
      (.success (-20) (some (-20)) (some 0) false (-1) bufA.length
        (decide (1 < bufA.length)), some ⟨outPath, bufA, 48000⟩) :=
  round_trip_identity sampleEnv inPath outPath (-20) (-1) bufA 48000
    (by norm_num [sampleEnv, sampleDb2lin])
    (by decide)
    (by simp [sampleEnv])
    (by simp [sampleEnv])
    (by norm_num [sampleEnv, sampleDb2lin, peakOf, peakList_cons, peakList,
      bufA, abs_of_nonneg])
    rfl

/-- C5: Gain normalizer. For every buffer and every finite measured
loudness, the (spec-modelled) gain step computes
`gain_db = target - measured`, converts it to the linear factor
`db2lin gain_db`, and multiplies every sample in every channel by exactly
that one factor, changing nothing else about the buffer: the channel
structure is preserved and every sample position holds exactly the scaled
original sample. -/
theorem gain_normalizer_formula (d : ℚ → ℚ) (m t : ℚ) (b : Buffer) :
    pyln_normalize_loudness d (some m) t b = .ok (scaleBuffer (d (t - m)) b) ∧
    (scaleBuffer (d (t - m)) b).map List.length = b.map List.length ∧
    ∀ i j : ℕ, ((scaleBuffer (d (t - m)) b)[i]?.bind (fun ch => ch[j]?)) =
      (b[i]?.bind (fun ch => ch[j]?)).map (fun x => d (t - m) * x) := by
  refine ⟨rfl, scaleBuffer_shape _ _, fun i j => ?_⟩
  rw [scaleBuffer, List.getElem?_map]
  cases hb : b[i]? with
  | none => rfl
  | some ch => simp [List.getElem?_map]

/-- C4: Limiter engaged path. For every buffer whose peak exceeds the
ceiling, the limiter scales every sample by `ceiling_linear / current_peak`,
re-measures the integrated loudness of the scaled buffer (hypothesis `hm`),
multiplies every sample by the damped compensation gain
`0.8 * 10 ^ ((target - limited_loudness) / 20)`, runs the final peak
re-check, and reports the limiter as engaged (`true`). -/
theorem limiter_engaged_path (env : Env) (sr : ℕ) (t tpl : ℚ) (b : Buffer)
    (L : ℚ)
    (hp : env.db2lin tpl < peakOf b)
    (hm : env.meter sr (scaleBuffer (env.db2lin tpl / peakOf b) b) = some L) :
    apply_true_peak_limiter env sr t tpl b =
      .ok (postCompClamp env tpl
        (scaleBuffer (4/5 * env.db2lin (t - L))
          (scaleBuffer (env.db2lin tpl / peakOf b) b)), true) := by
  unfold apply_true_peak_limiter
  rw [if_pos hp, hm]

theorem limiter_engaged_path_witness :
    apply_true_peak_limiter sampleEnv 48000 (-14) (-1) bufC =
      .ok (postCompClamp sampleEnv (-1)
        (scaleBuffer (4/5 * sampleEnv.db2lin ((-14) - (-10)))
          (scaleBuffer (sampleEnv.db2lin (-1) / peakOf bufC) bufC)), true) ∧
    apply_true_peak_limiter sampleEnv 48000 (-14) (-1) bufC =
      .ok (bufD, true) := by
  have hpk : peakOf bufC = 2 := by
    norm_num [peakOf, peakList_cons, peakList, bufC, abs_of_nonneg]
  have hceil : sampleEnv.db2lin (-1 : ℚ) = 1 := by
    norm_num [sampleEnv, sampleDb2lin]
  have hp : sampleEnv.db2lin (-1 : ℚ) < peakOf bufC := by
    rw [hpk, hceil]
    norm_num
  have hsc : scaleBuffer (sampleEnv.db2lin (-1) / peakOf bufC) bufC = bufB := by
    rw [hceil, hpk]
    norm_num [scaleBuffer, bufB, bufC]
  have hm : sampleEnv.meter 48000
      (scaleBuffer (sampleEnv.db2lin (-1) / peakOf bufC) bufC) = some (-10) := by
    rw [hsc]
    norm_num [sampleEnv, bufA, bufB]
  have h1 := limiter_engaged_path sampleEnv 48000 (-14) (-1) bufC (-10) hp hm
  refine ⟨h1, ?_⟩
  rw [h1, hsc]
  have hcg : (4 : ℚ)/5 * sampleEnv.db2lin ((-14) - (-10)) = 4/5 := by
    norm_num [sampleEnv, sampleDb2lin]
  have hsc2 : scaleBuffer ((4 : ℚ)/5 * sampleEnv.db2lin ((-14) - (-10))) bufB
      = bufD := by
    rw [hcg]
    norm_num [scaleBuffer, bufB, bufD]
  rw [hsc2]
  have hpk2 : peakOf bufD = 4/5 := by
    norm_num [peakOf, peakList_cons, peakList, bufD, abs_of_nonneg]
  rw [postCompClamp, hpk2, hceil, if_neg (by norm_num)]

/-- C3: Silent-signal failure. For every buffer whose measured integrated
loudness is negative infinity (`none`), the gain-application step fails
with the distinct silent-signal condition instead of converting that
loudness into a gain and multiplying it into the samples (it never returns
a buffer), and `normalize_loudness` surfaces that condition as its error
result with nothing written. -/
theorem silent_signal_failure (d : ℚ → ℚ) (t0 : ℚ) (b0 : Buffer)
    (env : Env) (i o : String) (t tpl : ℚ) (a : Buffer) (sr : ℕ)
    (hfmt : check_supported_format i = true)
    (hdec : env.decode i = .ok (a, sr))
    (hm : env.meter sr a = none) :
    pyln_normalize_loudness d none t0 b0 = .error silent_signal_message ∧
    (∀ out, pyln_normalize_loudness d none t0 b0 ≠ .ok out) ∧
    normalize_loudness env i o t tpl = (.error silent_signal_message, none) := by
  refine ⟨rfl, fun out h => by simp [pyln_normalize_loudness] at h, ?_⟩
  rw [normalize_loudness, hfmt]
  simp only [if_true, hdec, hm]

theorem silent_signal_failure_witness :
    pyln_normalize_loudness silentEnv.db2lin none (-14) bufA =
      .error silent_signal_message ∧
    normalize_loudness silentEnv inPath outPath (-14) (-1) =
      (.error silent_signal_message, none) := by
  have h := silent_signal_failure silentEnv.db2lin (-14) bufA silentEnv
    inPath outPath (-14) (-1) bufA 48000 (by decide)
    (by simp [silentEnv]) (by simp [silentEnv])
  exact ⟨h.1, h.2.2⟩

/-- C2 (amended): Convergence target adjustment. For every attempt `k > 1`,
the driver re-measures the loudness of the buffer decoded from
`input_path` — the original input file, not the previous attempt's output —
computes `diff = original_target - current_loudness`, uses
`original_target + 1.5 * diff` as that attempt's working target, and runs
the measure-normalize-limit pass with it. -/
theorem convergence_target_uses_input_file (env : Env) (i o : String)
    (t tpl : ℚ) (n : ℕ) (hn : 1 < n) (a : Buffer) (sr : ℕ) (L : ℚ)
    (hdec : env.decode i = .ok (a, sr)) (hm : env.meter sr a = some L) :
    attempt_adjusted_target env i t n = some (t + 3/2 * (t - L)) ∧
    process_normalization_attempt env i o t tpl n =
      some (normalize_loudness env i o (t + 3/2 * (t - L)) tpl) := by
  have h1 : attempt_adjusted_target env i t n = some (t + 3/2 * (t - L)) := by
    rw [attempt_adjusted_target, if_pos hn]
    simp only [hdec, hm]
  exact ⟨h1, by rw [process_normalization_attempt, h1]; rfl⟩

theorem convergence_target_uses_input_file_witness :
    attempt_adjusted_target sampleEnv inPath (-14) 2 =
      some ((-14) + 3/2 * ((-14) - (-20))) ∧
    process_normalization_attempt sampleEnv inPath outPath (-14) (-1) 2 =
      some (normalize_loudness sampleEnv inPath outPath
        ((-14) + 3/2 * ((-14) - (-20))) (-1)) :=
  convergence_target_uses_input_file sampleEnv inPath outPath (-14) (-1) 2
    (by norm_num) bufA 48000 (-20) (by simp [sampleEnv]) (by simp [sampleEnv])

/-- C2 counterexample: in the sample environment, attempt 1 writes `bufB`
(loudness -10 LUFS) to the output path, yet attempt 2's working target is
computed from the loudness of the buffer at the INPUT path (-20 LUFS),
giving -5 LUFS; had the driver measured the previous attempt's output as
the claim states, the working target would have been
`-14 + 1.5 * (-14 - (-10)) = -20`, which differs. -/
theorem convergence_target_claim_counterexample :
    (normalize_loudness sampleEnv inPath outPath (-14) (-1)).2 =
      some ⟨outPath, bufB, 48000⟩ ∧
    sampleEnv.meter 48000 bufB = some (-10) ∧
    attempt_adjusted_target sampleEnv inPath (-14) 2 = some (-5) ∧
    ((-5 : ℚ) ≠ (-14) + 3/2 * ((-14) - (-10))) := by
  refine ⟨by rw [sampleEnv_run], by norm_num [sampleEnv, bufA, bufB], ?_,
    by norm_num⟩
  have hdec : sampleEnv.decode inPath = .ok (bufA, 48000) := by
    simp [sampleEnv]
  have hm : sampleEnv.meter 48000 bufA = some (-20) := by
    simp [sampleEnv]
  rw [attempt_adjusted_target, if_pos (by norm_num)]
  simp only [hdec, hm]
  norm_num

/-- C7: Unsupported-format rejection. For every path whose lowercase
extension is not in the fixed three-element allow-list, `normalize_loudness`
returns the unsupported-format error without consulting the decoder, meter
or encoder and without writing anything (the result is the same for every
environment); and the format check passes exactly for the paths whose
lowercase extension is `wav`, `mp3` or `flac`. -/
theorem unsupported_format_rejection (p : String) :
    (check_supported_format p = false →
      ∀ env o t tpl, normalize_loudness env p o t tpl =
        (.error (unsupported_format_message p), none)) ∧
    (check_supported_format p = true ↔
      (get_file_extension p = wav_ext ∨ get_file_extension p = mp3_ext ∨
        get_file_extension p = flac_ext)) := by
  constructor
  · intro h env o t tpl
    rw [normalize_loudness, h]
    simp
  · rw [check_supported_format]
    simp [supported_formats, List.contains, beq_iff_eq]

theorem unsupported_format_rejection_witness :
    check_supported_format oggPath = false ∧
    normalize_loudness sampleEnv oggPath outPath (-14) (-1) =
      (.error (unsupported_format_message oggPath), none) ∧
    check_supported_format upperWavPath = true ∧
    check_supported_format trailingSlashPath = true ∧
    check_supported_format dotComponentPath = true :=
  ⟨by decide,
    (unsupported_format_rejection oggPath).1 (by decide) sampleEnv outPath
      (-14) (-1),
    (unsupported_format_rejection upperWavPath).2.mpr (Or.inl (by decide)),
    (unsupported_format_rejection trailingSlashPath).2.mpr
      (Or.inl (by decide)),
    (unsupported_format_rejection dotComponentPath).2.mpr
      (Or.inr (Or.inl (by decide)))⟩

end LufsNormalizer
